import Mathlib

/-!
Verification of the nanodl GPT4 module (src/nanodl/src/models/gpt4.py)
against its natural-language specification.

The Python source is shallowly embedded below: tensors become functions
out of `Fin`-indexed domains (real-valued where the code computes with
floats), token ids become `ℤ`, the autoregressive decoding loops become
fuel-indexed recursions (the fuel is the loop bound `max_length` from the
source), and the neural decoder invoked inside the generation loops is
abstracted as an arbitrary next-token function, since the claims about
generation concern the control flow of the loops, not the network values.
-/

namespace Nanodl

/-! ## Model configuration (hyperparameters of `GPT4` / `GPT4Block`) -/

/-- The constructor arguments of the `GPT4` module (gpt4.py lines 407-417). -/
structure GPT4Config where
  num_layers : ℕ
  hidden_dim : ℕ
  num_heads : ℕ
  feedforward_dim : ℕ
  dropout : ℚ
  vocab_size : ℕ
  embed_dim : ℕ
  max_length : ℕ
  start_token : ℤ
  end_token : ℤ
  num_experts : ℕ
deriving DecidableEq

/-- The §8 scenario configuration: num_layers=1, hidden_dim=256, num_heads=2,
feedforward_dim=256, vocab_size=1000, embed_dim=256, max_length=51,
start_token=0, end_token=50, num_experts=10 (dropout 0.1 as in the module
docstring example). -/
def scenarioConfig : GPT4Config :=
  ⟨1, 256, 2, 256, 1/10, 1000, 256, 51, 0, 50, 10⟩

/-! ## `GPT4Block.causal_mask` (gpt4.py lines 267-290)

`idx_source = arange(destination_dim)[:, None]`, `idx_destination = arange(source_dim)`,
`mask = (idx_source >= idx_destination - source_dim + destination_dim).astype(int32)`,
then broadcast to `(batch_size, num_heads, destination_dim, source_dim)`.
The broadcast is the two constant leading `Fin` arguments. -/

/-- Embedding of `GPT4Block.causal_mask`.  `num_heads` is the module attribute
read at line 290; the remaining three arguments are the Python arguments. -/
def causal_mask (num_heads batch_size destination_dim source_dim : ℕ) :
    Fin batch_size → Fin num_heads → Fin destination_dim → Fin source_dim → ℤ :=
  fun _ _ i j =>
    if (i.val : ℤ) ≥ (j.val : ℤ) - (source_dim : ℤ) + (destination_dim : ℤ) then 1 else 0

/-! ## Generation (gpt4.py lines 444-526)

The decoder network called at the top of each loop iteration
(`self.decoder(decoder_input)` followed by last-position logits, temperature
scaling, softmax and argmax/categorical selection, lines 468-478 and 509-518)
is abstracted as a next-token function `step` from the current
`decoder_input` (a batch of integer token sequences) to the chosen next
token(s); the claims below quantify over every such function.  Token ids are
`ℤ`, a batch is a `List` of rows. -/

/-- The body of `GPT4.generate`'s autoregressive loop (lines 467-483):
emit `step decoder_input`, append it to the output sequence and to
`decoder_input` (concatenation along axis 1), and break once the emitted
token equals `end_token`.  The fuel is the loop bound `max_length`. -/
def generateLoop (step : List (List ℤ) → ℤ) (endTok : ℤ) :
    ℕ → List (List ℤ) → List ℤ → List ℤ
  | 0, _, output_sequence => output_sequence
  | fuel + 1, decoder_input, output_sequence =>
    let next_token := step decoder_input
    let output' := output_sequence ++ [next_token]
    let decoder_input' := decoder_input.map (fun row => row ++ [next_token])
    if next_token = endTok then output'
    else generateLoop step endTok fuel decoder_input' output'

/-- Embedding of `GPT4.generate` (lines 444-485): if an input is supplied its
batch dimension must be 1 (`assert x.shape[0] == 1`, line 461, modelled as an
`Except.error`); otherwise decoding starts from `[[start_token]]`.  The loop
runs at most `max_length` iterations and returns the emitted tokens
(the seed prefix is not part of the output). -/
def generate (cfg : GPT4Config) (step : List (List ℤ) → ℤ)
    (x : Option (List (List ℤ))) : Except String (List ℤ) :=
  match x with
  | some xs =>
    if xs.length = 1 then
      Except.ok (generateLoop step cfg.end_token cfg.max_length xs [])
    else
      Except.error "Batch size must be 1, else use generate_batch()"
  | none =>
    Except.ok (generateLoop step cfg.end_token cfg.max_length [[cfg.start_token]] [])

/-- The body of `GPT4.generate_batch`'s loop (lines 508-524): emit one token
per batch row, write them into column `i` of the fixed
`(batch_size, max_length)` output buffer, extend every row of
`decoder_input`, and break only when ALL emitted tokens equal `end_token`
(`jnp.all(next_token == self.end_token)`, line 523).  Besides the buffer the
embedding also returns the list of emitted token vectors, one entry per
executed loop iteration (a ghost trace of the writes at line 520). -/
def generateBatchLoop (stepB : List (List ℤ) → List ℤ) (endTok : ℤ) :
    ℕ → ℕ → List (List ℤ) → List (List ℤ) → List (List ℤ) →
    List (List ℤ) × List (List ℤ)
  | _, 0, _, output_sequences, emitted => (output_sequences, emitted)
  | i, fuel + 1, decoder_input, output_sequences, emitted =>
    let next_token := stepB decoder_input
    let output' := List.zipWith (fun row t => row.set i t) output_sequences next_token
    let decoder_input' := List.zipWith (fun row t => row ++ [t]) decoder_input next_token
    let emitted' := emitted ++ [next_token]
    if ∀ t ∈ next_token, t = endTok then (output', emitted')
    else generateBatchLoop stepB endTok (i + 1) fuel decoder_input' output' emitted'

/-- Embedding of `GPT4.generate_batch` (lines 488-526): the decoder input is
the supplied batch or a single start-token row, the output buffer is a
zero-initialized `(batch_size, max_length)` array, and the loop runs at most
`max_length` iterations. -/
def generate_batch (cfg : GPT4Config) (stepB : List (List ℤ) → List ℤ)
    (x : Option (List (List ℤ))) : List (List ℤ) × List (List ℤ) :=
  let decoder_input := match x with
    | some xs => xs
    | none => [[cfg.start_token]]
  let batch_size := decoder_input.length
  let output_sequences := List.replicate batch_size (List.replicate cfg.max_length (0 : ℤ))
  generateBatchLoop stepB cfg.end_token 0 cfg.max_length decoder_input output_sequences []

/-! ## Trainer epoch loop (gpt4.py lines 611-647)

The claims about the trainer concern the validation branch of the epoch
loop: `val_loss = self.evaluate(val_loader)`, then
`if val_loss < self.best_val_loss: self.best_val_loss = val_loss`, then
(unconditionally) `self.save_params()`.  The inner training loop (lines
626-638) does not touch `best_val_loss` or the checkpoint file and is not
modelled; the sequence of validation losses that `self.evaluate` returns
over the epochs is abstracted as a function from the epoch index.
`best_val_loss` starts at `float("inf")` (line 550), modelled as `⊤` in
`WithTop ℚ`; `saves` counts calls to `save_params` (checkpoint writes). -/

/-- The trainer state fields touched by the validation branch. -/
structure TrainerState where
  best_val_loss : WithTop ℚ
  saves : ℕ
deriving DecidableEq

/-- One epoch's validation branch (lines 640-646): compare the validation
loss against `best_val_loss`, update it on improvement, and call
`save_params` unconditionally. -/
def epochValStep (st : TrainerState) (val_loss : ℚ) : TrainerState :=
  let best := if (val_loss : WithTop ℚ) < st.best_val_loss then (val_loss : WithTop ℚ)
              else st.best_val_loss
  ⟨best, st.saves + 1⟩

/-- Embedding of the epoch loop of `GPT4DataParallelTrainer.train` restricted
to the state touched by the validation branch: when a validation loader is
supplied (`some valLoss`, the loss it yields at each epoch), every epoch runs
the validation branch; with no validation loader the state is untouched. -/
def train (num_epochs : ℕ) (valLoss : Option (ℕ → ℚ)) (st0 : TrainerState) : TrainerState :=
  (List.range num_epochs).foldl
    (fun st e =>
      match valLoss with
      | some f => epochValStep st (f e)
      | none => st) st0

/-! ## `SelfMultiHeadAttention.attention_function` (gpt4.py lines 108-126)

Real-valued tensors are functions out of `Fin`-indexed domains:
`query`, `key` have shape `(B, L, D)` with `D = query.shape[-1]`.
Line 111 sets `head_dim = query.shape[-1] // self.num_heads` and line 112
sets `dim_key = key.shape[-1]` (the FULL width, before the head split).
Lines 115-117 reshape `(B, L, D)` row-major into
`(B, num_heads, L, head_dim)`; line 119 computes
`matmul(query_heads, key_heads.transpose(0,1,3,2)) / sqrt(dim_key)`;
lines 120-121 multiply by the mask when one is supplied; line 123 applies
softmax over the last (key) axis. -/

/-- The row-major reshape of a `(B, L, D)` tensor into
`(B, H, L, D / H)` performed by `jnp.reshape` at lines 115-117: entry
`(b, h, i, e)` reads flat offset `h*(L*(D/H)) + i*(D/H) + e` of batch `b`,
i.e. row `offset / D`, column `offset % D` of the original tensor. -/
def splitHeads (B L D H : ℕ) (t : Fin B → Fin L → Fin D → ℝ) :
    Fin B → Fin H → Fin L → Fin (D / H) → ℝ :=
  fun b h i e =>
    have hd0 : 0 < D / H := Nat.lt_of_le_of_lt (Nat.zero_le e.val) e.isLt
    have hD : 0 < D := Nat.lt_of_lt_of_le hd0 (Nat.div_le_self D H)
    have hflat : h.val * (L * (D / H)) + i.val * (D / H) + e.val < L * D := by
      have h1 : h.val * (L * (D / H)) + i.val * (D / H) + e.val
          < (h.val + 1) * (L * (D / H)) := by
        have hi1 : i.val * (D / H) + e.val < L * (D / H) := by
          calc i.val * (D / H) + e.val < i.val * (D / H) + (D / H) := by
                exact Nat.add_lt_add_left e.isLt _
            _ = (i.val + 1) * (D / H) := by ring
            _ ≤ L * (D / H) := Nat.mul_le_mul_right _ i.isLt
        calc h.val * (L * (D / H)) + i.val * (D / H) + e.val
            = h.val * (L * (D / H)) + (i.val * (D / H) + e.val) := by ring
          _ < h.val * (L * (D / H)) + L * (D / H) := Nat.add_lt_add_left hi1 _
          _ = (h.val + 1) * (L * (D / H)) := by ring
      have h2 : (h.val + 1) * (L * (D / H)) ≤ H * (L * (D / H)) :=
        Nat.mul_le_mul_right _ h.isLt
      have h3 : H * (L * (D / H)) = L * (H * (D / H)) := by ring
      have h4 : H * (D / H) ≤ D := by
        calc H * (D / H) = D / H * H := by ring
          _ ≤ D := Nat.div_mul_le_self D H
      calc h.val * (L * (D / H)) + i.val * (D / H) + e.val
          < (h.val + 1) * (L * (D / H)) := h1
        _ ≤ H * (L * (D / H)) := h2
        _ = L * (H * (D / H)) := h3
        _ ≤ L * D := Nat.mul_le_mul_left _ h4
    t b ⟨(h.val * (L * (D / H)) + i.val * (D / H) + e.val) / D,
          (Nat.div_lt_iff_lt_mul hD).mpr hflat⟩
        ⟨(h.val * (L * (D / H)) + i.val * (D / H) + e.val) % D,
          Nat.mod_lt _ hD⟩

/-- Line 119: the raw attention scores
`matmul(query_heads, key_heads.transpose(0,1,3,2)) / jnp.sqrt(dim_key)`,
with `dim_key = key.shape[-1] = D` (line 112). -/
noncomputable def attentionScores (B Lq Lk D H : ℕ)
    (query : Fin B → Fin Lq → Fin D → ℝ) (key : Fin B → Fin Lk → Fin D → ℝ) :
    Fin B → Fin H → Fin Lq → Fin Lk → ℝ :=
  fun b h i j =>
    (∑ e : Fin (D / H), splitHeads B Lq D H query b h i e * splitHeads B Lk D H key b h j e)
      / Real.sqrt (D : ℝ)

/-- Follows the spec's words for the scaling (§4.1: "Compute scaled
dot-product scores: query·keyᵗ / sqrt(per-head dimension)"): identical to
`attentionScores` except that the denominator is the square root of the
per-head dimension `D / H` instead of the full key width `D`.  Declared for
comparison with the source-derived `attentionScores`. -/
noncomputable def specPerHeadScores (B Lq Lk D H : ℕ)
    (query : Fin B → Fin Lq → Fin D → ℝ) (key : Fin B → Fin Lk → Fin D → ℝ) :
    Fin B → Fin H → Fin Lq → Fin Lk → ℝ :=
  fun b h i j =>
    (∑ e : Fin (D / H), splitHeads B Lq D H query b h i e * splitHeads B Lk D H key b h j e)
      / Real.sqrt ((D / H : ℕ) : ℝ)

/-- Lines 120-121: `if mask is not None: attention_scores = attention_scores * mask`
(elementwise multiplication by the supplied mask; no mask leaves the scores
unchanged). -/
noncomputable def maskedScores (B Lq Lk D H : ℕ)
    (query : Fin B → Fin Lq → Fin D → ℝ) (key : Fin B → Fin Lk → Fin D → ℝ)
    (mask : Option (Fin B → Fin H → Fin Lq → Fin Lk → ℝ)) :
    Fin B → Fin H → Fin Lq → Fin Lk → ℝ :=
  match mask with
  | some m => fun b h i j => attentionScores B Lq Lk D H query key b h i j * m b h i j
  | none => attentionScores B Lq Lk D H query key

/-- `jax.nn.softmax` over one row (the stable max-subtracted form used by the
library is mathematically equal to this one). -/
noncomputable def softmax {n : ℕ} (v : Fin n → ℝ) : Fin n → ℝ :=
  fun j => Real.exp (v j) / ∑ k : Fin n, Real.exp (v k)

/-- Line 123: `attention_weights = jax.nn.softmax(attention_scores, axis=-1)`,
computed over the (possibly masked) scores, along the key axis. -/
noncomputable def attentionWeights (B Lq Lk D H : ℕ)
    (query : Fin B → Fin Lq → Fin D → ℝ) (key : Fin B → Fin Lk → Fin D → ℝ)
    (mask : Option (Fin B → Fin H → Fin Lq → Fin Lk → ℝ)) :
    Fin B → Fin H → Fin Lq → Fin Lk → ℝ :=
  fun b h i j => softmax (fun j2 => maskedScores B Lq Lk D H query key mask b h i j2) j

/-- Line 124: `attended_values = jnp.matmul(attention_weights, value_heads)`
(per-head; the final reshape back to `(B, L, D)` at line 125 is not needed by
any claim). -/
noncomputable def attendedHeads (B Lq Lk D H : ℕ)
    (query : Fin B → Fin Lq → Fin D → ℝ) (key : Fin B → Fin Lk → Fin D → ℝ)
    (value : Fin B → Fin Lk → Fin D → ℝ)
    (mask : Option (Fin B → Fin H → Fin Lq → Fin Lk → ℝ)) :
    Fin B → Fin H → Fin Lq → Fin (D / H) → ℝ :=
  fun b h i e =>
    ∑ j : Fin Lk, attentionWeights B Lq Lk D H query key mask b h i j
      * splitHeads B Lk D H value b h j e

/-! ## `GPT4Block.__call__` wiring (gpt4.py lines 292-324)

The claims about the block concern which intermediate value each residual
addition uses, not the numerics of the sub-layers, so the sub-layer modules
assigned in `setup` are abstracted as functions over a type `α` of hidden
states (with `+` for the residual additions); each attention returns its
context output together with an attention map of type `β`.  The causal mask
built at line 307 is consumed inside the attention sub-layers and is folded
into the abstracted attention functions. -/

/-- The sub-layer modules assigned in `GPT4Block.setup` (lines 256-265), in
source order. -/
structure BlockFns (α β : Type) where
  attention1 : α → α × β
  attention2 : α → α × β
  feed_forward : α → α
  norm1 : α → α
  norm2 : α → α
  norm3 : α → α
  dropout1 : α → α
  dropout2 : α → α
  dropout3 : α → α

/-- Embedding of the body of `GPT4Block.__call__` (lines 309-324), statement
by statement.  Note that at line 315 the name `attended_x` is rebound to the
second attention's output, so both the `x += attended_x` at line 317 and the
one at line 322 add the SECOND attention's output. -/
def blockCall {α β : Type} [Add α] (f : BlockFns α β) (x0 : α) : α × β × β :=
  let x := f.norm1 x0
  let a1 := f.attention1 x
  let x := f.dropout1 x
  let x := x + a1.1
  let x := f.norm2 x
  let a2 := f.attention2 x
  let x := f.dropout2 x
  let x := x + a2.1
  let x := f.norm3 x
  let output := f.feed_forward x
  let x := f.dropout3 output
  let x := x + a2.1
  (x, a1.2, a2.2)

/-- Follows the spec's words for the residual wiring (§4.4: the second
sub-layer does a "residual-add using the *first* attention's output (not the
second)", and the feed-forward sub-layer a "residual-add using the *second
attention output*"): identical to `blockCall` except that the residual
addition closing the second sub-layer adds the first attention's output.
Declared for comparison with the source-derived `blockCall`. -/
def specBlockCall {α β : Type} [Add α] (f : BlockFns α β) (x0 : α) : α × β × β :=
  let x := f.norm1 x0
  let a1 := f.attention1 x
  let x := f.dropout1 x
  let x := x + a1.1
  let x := f.norm2 x
  let a2 := f.attention2 x
  let x := f.dropout2 x
  let x := x + a1.1
  let x := f.norm3 x
  let output := f.feed_forward x
  let x := f.dropout3 output
  let x := x + a2.1
  (x, a1.2, a2.2)

/-- A concrete instance of the block's sub-layers over `α = β = ℤ`, used to
evaluate the wiring on explicit inputs: both attentions are translations
(by 1 and by 2) with a zero attention map, every other sub-layer is the
identity. -/
def exampleBlockFns : BlockFns ℤ ℤ :=
  ⟨fun x => (x + 1, 0), fun x => (x + 2, 0), id, id, id, id, id, id, id⟩

/-! ## `GPT4Block.setup` normalization layers (gpt4.py lines 256-265)

`self.norm1 = nn.LayerNorm(self.dropout)` (likewise `norm2`, `norm3`).
`flax.linen.LayerNorm` (a library collaborator, not part of this
repository's sources) takes `epsilon` as its first constructor field and
normalizes by `(x - mean(x)) / sqrt(var(x) + epsilon)` (its learned scale
and bias, initialized to ones and zeros, are omitted here: no claim concerns
them).  So each of the three norms receives the configured dropout
probability as its epsilon. -/

/-- A layer-normalization module: the `epsilon` constructor field of
`flax.linen.LayerNorm` (its first positional parameter). -/
structure LayerNorm where
  epsilon : ℝ

/-- Mean of a vector, as used by layer normalization. -/
noncomputable def vecMean {n : ℕ} (x : Fin n → ℝ) : ℝ := (∑ i : Fin n, x i) / n

/-- Population variance of a vector, as used by layer normalization. -/
noncomputable def vecVar {n : ℕ} (x : Fin n → ℝ) : ℝ :=
  (∑ i : Fin n, (x i - vecMean x) ^ 2) / n

/-- `flax.linen.LayerNorm.__call__` (library semantics):
`(x - mean) / sqrt(var + epsilon)`. -/
noncomputable def LayerNorm.apply (ln : LayerNorm) {n : ℕ} (x : Fin n → ℝ) : Fin n → ℝ :=
  fun i => (x i - vecMean x) / Real.sqrt (vecVar x + ln.epsilon)

/-- The three normalization layers constructed by `GPT4Block.setup`
(lines 260-262): each is `nn.LayerNorm(self.dropout)`, i.e. a `LayerNorm`
whose first (and only positional) argument — `epsilon` — is the block's
dropout probability. -/
noncomputable def setupNorms (dropout : ℝ) : LayerNorm × LayerNorm × LayerNorm :=
  (⟨dropout⟩, ⟨dropout⟩, ⟨dropout⟩)

/-! ## Checkpointing (gpt4.py lines 690-710)

`save_params` pickles `self.state.params` into the weights file and
`load_params` unpickles it.  The parameter tree is a nested dictionary of
arrays; it is represented here by its flattened form — a list of
(path, leaf-array) entries, as produced by `jax.tree_util` — with rational
leaf values.  The pickle blob (a library collaborator, not part of this
repository's sources) is modelled from the spec: §6 describes the checkpoint
file as "an opaque serialized blob of the full parameter tree" whose only
specified structure is that it "round-trips the parameter tree exactly"; the
blob is realized as a token list with length-prefixed path and data
segments, and `load_params` parses it back. -/

/-- An entry of the flattened parameter tree: the path of dictionary keys
leading to a leaf, and the leaf's array of values. -/
def PEntry : Type := List String × List ℚ

/-- A parameter tree, in flattened form. -/
def PParams : Type := List PEntry

/-- One token of the serialized blob. -/
inductive PToken where
  | nat : ℕ → PToken
  | str : String → PToken
  | rat : ℚ → PToken
deriving DecidableEq

/-- Read back a string token. -/
def getStr : PToken → Option String
  | PToken.str s => some s
  | _ => none

/-- Read back a rational token. -/
def getRat : PToken → Option ℚ
  | PToken.rat q => some q
  | _ => none

/-- Serialize one entry: length-prefixed path strings, then the
length-prefixed leaf data. -/
def encodeEntry (e : PEntry) : List PToken :=
  PToken.nat e.1.length :: (e.1.map PToken.str ++
    (PToken.nat e.2.length :: e.2.map PToken.rat))

/-- Modelled from the spec: `GPT4DataParallelTrainer.save_params`
(lines 690-695) writes the pickle blob of the full parameter tree to the
weights file; the blob is the entry count followed by each serialized
entry. -/
def save_params (ps : PParams) : List PToken :=
  PToken.nat ps.length :: (ps.map encodeEntry).flatten

/-- Parse one serialized entry back off the front of a blob. -/
def decodeEntry : List PToken → Option (PEntry × List PToken)
  | PToken.nat n :: rest =>
    match rest.drop n with
    | PToken.nat m :: rest2 =>
      some (((rest.take n).filterMap getStr, (rest2.take m).filterMap getRat),
        rest2.drop m)
    | _ => none
  | _ => none

/-- Parse a given number of serialized entries off the front of a blob. -/
def decodeEntries : ℕ → List PToken → Option (PParams × List PToken)
  | 0, rest => some ([], rest)
  | k + 1, rest =>
    match decodeEntry rest with
    | some (e, rest2) =>
      match decodeEntries k rest2 with
      | some (es, rest3) => some (e :: es, rest3)
      | none => none
    | none => none

/-- Modelled from the spec: `GPT4DataParallelTrainer.load_params`
(lines 697-710) unpickles the blob read from the file, recovering the
parameter tree. -/
def load_params (blob : List PToken) : Option PParams :=
  match blob with
  | PToken.nat k :: rest =>
    match decodeEntries k rest with
    | some (es, _) => some es
    | none => none
  | _ => none

/-! ## Helper lemmas -/

theorem take_len_app {γ : Type} (l1 l2 : List γ) : (l1 ++ l2).take l1.length = l1 := by
  induction l1 with
  | nil => simp
  | cons a t ih => simp [ih]

theorem drop_len_app {γ : Type} (l1 l2 : List γ) : (l1 ++ l2).drop l1.length = l2 := by
  induction l1 with
  | nil => simp
  | cons a t ih => simp [ih]

theorem filterMap_getStr_map (l : List String) :
    (l.map PToken.str).filterMap getStr = l := by
  induction l with
  | nil => rfl
  | cons a t ih => simp [getStr, ih]

theorem filterMap_getRat_map (l : List ℚ) :
    (l.map PToken.rat).filterMap getRat = l := by
  induction l with
  | nil => rfl
  | cons a t ih => simp [getRat, ih]

theorem decodeEntry_encodeEntry (path : List String) (data : List ℚ) (rest : List PToken) :
    decodeEntry (encodeEntry (path, data) ++ rest) = some ((path, data), rest) := by
  have hlen1 : (path.map PToken.str).length = path.length := List.length_map _ _
  have hlen2 : (data.map PToken.rat).length = data.length := List.length_map _ _
  have hassoc : encodeEntry (path, data) ++ rest =
      PToken.nat path.length ::
        (path.map PToken.str ++
          (PToken.nat data.length :: (data.map PToken.rat ++ rest))) := by
    simp [encodeEntry]
  rw [hassoc]
  show (match (path.map PToken.str ++
      (PToken.nat data.length :: (data.map PToken.rat ++ rest))).drop path.length with
    | PToken.nat m :: rest2 =>
      some ((((path.map PToken.str ++
        (PToken.nat data.length :: (data.map PToken.rat ++ rest))).take path.length).filterMap getStr,
        (rest2.take m).filterMap getRat), rest2.drop m)
    | _ => none) = some ((path, data), rest)
  rw [← hlen1, drop_len_app, take_len_app]
  rw [filterMap_getStr_map]
  dsimp only
  rw [← hlen2, take_len_app, drop_len_app, filterMap_getRat_map]

theorem decodeEntries_encode (ps : PParams) (rest : List PToken) :
    decodeEntries ps.length ((ps.map encodeEntry).flatten ++ rest) = some (ps, rest) := by
  induction ps generalizing rest with
  | nil => rfl
  | cons e t ih =>
    obtain ⟨path, data⟩ := e
    have h1 : ((((path, data) :: t).map encodeEntry).flatten ++ rest) =
        encodeEntry (path, data) ++ ((t.map encodeEntry).flatten ++ rest) := by
      simp
    rw [List.length_cons, h1]
    show (match decodeEntry (encodeEntry (path, data) ++ ((t.map encodeEntry).flatten ++ rest)) with
      | some (e, rest2) =>
        match decodeEntries t.length rest2 with
        | some (es, rest3) => some (e :: es, rest3)
        | none => none
      | none => none) = some ((path, data) :: t, rest)
    rw [decodeEntry_encodeEntry]
    dsimp only
    rw [ih]

theorem getLastD_mem {γ : Type} (l : List γ) (d : γ) (h : l ≠ []) : l.getLastD d ∈ l := by
  induction l generalizing d with
  | nil => exact absurd rfl h
  | cons a t ih =>
    cases t with
    | nil => simp [List.getLastD]
    | cons b u =>
      have := ih a (by simp)
      simp only [List.getLastD]
      exact List.mem_cons_of_mem _ this

theorem generateLoop_length_le (step : List (List ℤ) → ℤ) (endTok : ℤ) :
    ∀ (fuel : ℕ) (dec : List (List ℤ)) (out : List ℤ),
      (generateLoop step endTok fuel dec out).length ≤ out.length + fuel := by
  intro fuel
  induction fuel with
  | zero => intro dec out; simp [generateLoop]
  | succ n ih =>
    intro dec out
    show (if step dec = endTok then out ++ [step dec]
      else generateLoop step endTok n (dec.map (fun row => row ++ [step dec]))
        (out ++ [step dec])).length ≤ out.length + (n + 1)
    split
    · simp
    · have := ih (dec.map (fun row => row ++ [step dec])) (out ++ [step dec])
      simp only [List.length_append, List.length_singleton] at this
      omega

theorem generateLoop_end_notin_dropLast (step : List (List ℤ) → ℤ) (endTok : ℤ) :
    ∀ (fuel : ℕ) (dec : List (List ℤ)) (out : List ℤ),
      endTok ∉ out → endTok ∉ (generateLoop step endTok fuel dec out).dropLast := by
  intro fuel
  induction fuel with
  | zero =>
    intro dec out hout
    exact fun hmem => hout ((List.dropLast_sublist out).subset hmem)
  | succ n ih =>
    intro dec out hout
    show endTok ∉ (if step dec = endTok then out ++ [step dec]
      else generateLoop step endTok n (dec.map (fun row => row ++ [step dec]))
        (out ++ [step dec])).dropLast
    split
    · rw [List.dropLast_concat]
      exact hout
    · rename_i hne
      refine ih _ (out ++ [step dec]) ?_
      intro hmem
      rcases List.mem_append.mp hmem with h1 | h2
      · exact hout h1
      · exact hne (List.mem_singleton.mp h2).symm

theorem generateBatchLoop_spec (stepB : List (List ℤ) → List ℤ) (endTok : ℤ) (n : ℕ)
    (hstep : ∀ d : List (List ℤ), (stepB d).length = d.length) :
    ∀ (fuel i : ℕ) (dec buf em : List (List ℤ)),
      dec.length = n → (∀ v ∈ em, v.length = n) →
      (generateBatchLoop stepB endTok i fuel dec buf em).2.length ≤ em.length + fuel ∧
      (∀ v ∈ (generateBatchLoop stepB endTok i fuel dec buf em).2, v.length = n) ∧
      ((generateBatchLoop stepB endTok i fuel dec buf em).2.length < em.length + fuel →
        (generateBatchLoop stepB endTok i fuel dec buf em).2 ≠ [] ∧
        ∀ t ∈ (generateBatchLoop stepB endTok i fuel dec buf em).2.getLastD [], t = endTok) := by
  intro fuel
  induction fuel with
  | zero =>
    intro i dec buf em hdec hem
    refine ⟨by simp [generateBatchLoop], by simpa [generateBatchLoop] using hem, ?_⟩
    intro hlt
    simp [generateBatchLoop] at hlt
  | succ f ih =>
    intro i dec buf em hdec hem
    by_cases hall : ∀ t ∈ stepB dec, t = endTok
    · have hres : generateBatchLoop stepB endTok i (f + 1) dec buf em =
          (List.zipWith (fun row t => row.set i t) buf (stepB dec), em ++ [stepB dec]) := by
        simp only [generateBatchLoop, if_pos hall]
      rw [hres]
      refine ⟨by simp, ?_, ?_⟩
      · intro v hv
        rcases List.mem_append.mp hv with h1 | h2
        · exact hem v h1
        · rw [List.mem_singleton.mp h2, hstep dec, hdec]
      · intro _
        refine ⟨by simp, ?_⟩
        show ∀ t ∈ (em ++ [stepB dec]).getLastD [], t = endTok
        rw [List.getLastD_concat]
        exact hall
    · have hres : generateBatchLoop stepB endTok i (f + 1) dec buf em =
          generateBatchLoop stepB endTok (i + 1) f
            (List.zipWith (fun row t => row ++ [t]) dec (stepB dec))
            (List.zipWith (fun row t => row.set i t) buf (stepB dec))
            (em ++ [stepB dec]) := by
        simp only [generateBatchLoop, if_neg hall]
      rw [hres]
      have hdec2 : (List.zipWith (fun row t => row ++ [t]) dec (stepB dec)).length = n := by
        rw [List.length_zipWith, hstep dec, hdec, min_self]
      have hem2 : ∀ v ∈ em ++ [stepB dec], v.length = n := by
        intro v hv
        rcases List.mem_append.mp hv with h1 | h2
        · exact hem v h1
        · rw [List.mem_singleton.mp h2, hstep dec, hdec]
      have := ih (i + 1)
        (List.zipWith (fun row t => row ++ [t]) dec (stepB dec))
        (List.zipWith (fun row t => row.set i t) buf (stepB dec))
        (em ++ [stepB dec]) hdec2 hem2
      refine ⟨?_, this.2.1, ?_⟩
      · have h1 := this.1
        simp only [List.length_append, List.length_singleton] at h1
        omega
      · intro hlt
        refine this.2.2 ?_
        have h1 := this.1
        simp only [List.length_append, List.length_singleton] at h1 ⊢
        omega

theorem train_foldl_saves (f : ℕ → ℚ) :
    ∀ (l : List ℕ) (st : TrainerState),
      (l.foldl (fun st e => epochValStep st (f e)) st).saves = st.saves + l.length := by
  intro l
  induction l with
  | nil => intro st; simp
  | cons a t ih =>
    intro st
    simp only [List.foldl_cons, List.length_cons]
    rw [ih]
    show (epochValStep st (f a)).saves + t.length = st.saves + (t.length + 1)
    simp [epochValStep]
    omega

theorem foldl_id {γ δ : Type} (l : List δ) (st : γ) :
    (l.foldl (fun s (_ : δ) => s) st) = st := by
  induction l with
  | nil => rfl
  | cons a t ih => exact ih

/-! ## Claim theorems -/

/-- C1 (counterexample): the raw attention scores are NOT `query·keyᵗ`
divided by the square root of the per-head dimension.  At the concrete input
`hidden_dim = 2`, `num_heads = 2`, batch 1, one position, all-ones query and
key, the source's scores (`attentionScores`, which divide by
`sqrt(key.shape[-1]) = sqrt 2`) differ from the spec's formula
(`specPerHeadScores`, which divides by `sqrt(hidden_dim / num_heads) = sqrt 1`). -/
theorem attention_scale_counterexample :
    attentionScores 1 1 1 2 2 (fun _ _ _ => 1) (fun _ _ _ => 1) 0 0 0 0 ≠
    specPerHeadScores 1 1 1 2 2 (fun _ _ _ => 1) (fun _ _ _ => 1) 0 0 0 0 := by
  have hsum : (∑ e : Fin (2 / 2), splitHeads 1 1 2 2 (fun _ _ _ => (1:ℝ)) 0 0 0 e *
      splitHeads 1 1 2 2 (fun _ _ _ => (1:ℝ)) 0 0 0 e) = 1 := by
    simp [splitHeads]
  have hL : attentionScores 1 1 1 2 2 (fun _ _ _ => 1) (fun _ _ _ => 1) 0 0 0 0 =
      1 / Real.sqrt 2 := by
    unfold attentionScores
    rw [hsum]
    norm_num
  have hR : specPerHeadScores 1 1 1 2 2 (fun _ _ _ => 1) (fun _ _ _ => 1) 0 0 0 0 = 1 := by
    unfold specPerHeadScores
    rw [hsum]
    norm_num
  rw [hL, hR]
  have hs : Real.sqrt 2 ^ 2 = 2 := Real.sq_sqrt (by norm_num)
  have h2 : 1 < Real.sqrt 2 := by nlinarith [Real.sqrt_nonneg 2]
  have : 1 / Real.sqrt 2 < 1 := by
    rw [div_lt_one (by positivity)]
    exact h2
  exact ne_of_lt this

/-- C1 (amended): the raw attention scores equal `query·keyᵗ` (computed per
head) divided by the square root of the FULL key width `key.shape[-1]`,
which — when `num_heads` divides `hidden_dim` — equals
`sqrt(num_heads * per-head dimension)`, not `sqrt(per-head dimension)`. -/
theorem attentionScores_full_width_scaling :
    ∀ (B Lq Lk D H : ℕ), H ∣ D →
    ∀ (query : Fin B → Fin Lq → Fin D → ℝ) (key : Fin B → Fin Lk → Fin D → ℝ)
      (b : Fin B) (h : Fin H) (i : Fin Lq) (j : Fin Lk),
      attentionScores B Lq Lk D H query key b h i j =
        (∑ e : Fin (D / H),
          splitHeads B Lq D H query b h i e * splitHeads B Lk D H key b h j e)
          / Real.sqrt ((H : ℝ) * ((D / H : ℕ) : ℝ)) := by
  intro B Lq Lk D H hdvd query key b h i j
  unfold attentionScores
  have hD : H * (D / H) = D := Nat.mul_div_cancel' hdvd
  have hcast : ((D : ℕ) : ℝ) = (H : ℝ) * ((D / H : ℕ) : ℝ) := by
    rw [← Nat.cast_mul]
    exact_mod_cast hD.symm
  rw [hcast]

/-- C1 witness: the amended scaling law evaluated at the concrete input of
the counterexample, with the divisibility hypothesis `2 ∣ 2` discharged. -/
theorem attentionScores_full_width_scaling_witness :
    attentionScores 1 1 1 2 2 (fun _ _ _ => 1) (fun _ _ _ => 1) 0 0 0 0 =
      (∑ e : Fin (2 / 2), splitHeads 1 1 2 2 (fun _ _ _ => 1) 0 0 0 e *
        splitHeads 1 1 2 2 (fun _ _ _ => 1) 0 0 0 e)
        / Real.sqrt ((2 : ℝ) * ((2 / 2 : ℕ) : ℝ)) :=
  attentionScores_full_width_scaling 1 1 1 2 2 (by decide)
    (fun _ _ _ => 1) (fun _ _ _ => 1) 0 0 0 0

/-- C2 (counterexample): the residual addition that closes the second
self-attention sub-layer does NOT add the first attention's output.  On the
concrete sub-layers `exampleBlockFns` (attention1 adds 1, attention2 adds 2,
all other sub-layers the identity) and input 5, the source wiring
(`blockCall`) and the spec's wiring (`specBlockCall`, second residual add
using the first attention's output) produce different results. -/
theorem blockCall_residual_counterexample :
    blockCall exampleBlockFns 5 ≠ specBlockCall exampleBlockFns 5 := by
  decide

/-- C2 (amended): in every call of the decoder block, the residual addition
that closes the second self-attention sub-layer adds the SECOND attention
sub-layer's output to the dropped-out stream, and the residual addition that
closes the feed-forward sub-layer reuses that same second attention output. -/
theorem blockCall_residual_wiring (α β : Type) [Add α] (f : BlockFns α β) (x0 : α) :
    blockCall f x0 =
      (let x1 := f.dropout1 (f.norm1 x0) + (f.attention1 (f.norm1 x0)).1
       let a2 := (f.attention2 (f.norm2 x1)).1
       let x2 := f.dropout2 (f.norm2 x1) + a2
       let x3 := f.dropout3 (f.feed_forward (f.norm3 x2)) + a2
       (x3, (f.attention1 (f.norm1 x0)).2, (f.attention2 (f.norm2 x1)).2)) := rfl

/-- C3: in `generate_batch`, the decoding loop executes at most `max_length`
steps; whenever it stops before `max_length` steps, the final step emitted
the end token for EVERY sequence of the batch simultaneously, so every
sequence has emitted the end token; and there is no per-sequence early stop:
every executed step emits a token for every one of the `xs.length` sequences
(each entry of the emitted trace has full batch width). -/
theorem generate_batch_global_early_stop :
    ∀ (cfg : GPT4Config) (stepB : List (List ℤ) → List ℤ) (xs : List (List ℤ)),
      (∀ d : List (List ℤ), (stepB d).length = d.length) →
      (generate_batch cfg stepB (some xs)).2.length ≤ cfg.max_length ∧
      (∀ v ∈ (generate_batch cfg stepB (some xs)).2, v.length = xs.length) ∧
      ((generate_batch cfg stepB (some xs)).2.length < cfg.max_length →
        ∀ b, b < xs.length →
          ∃ v ∈ (generate_batch cfg stepB (some xs)).2, v.getD b 0 = cfg.end_token) := by
  intro cfg stepB xs hstep
  have h := generateBatchLoop_spec stepB cfg.end_token xs.length hstep cfg.max_length 0 xs
    (List.replicate xs.length (List.replicate cfg.max_length 0)) [] rfl (by simp)
  simp only [List.length_nil, Nat.zero_add] at h
  refine ⟨h.1, h.2.1, ?_⟩
  intro hearly b hb
  obtain ⟨hne, hlast⟩ := h.2.2 hearly
  refine ⟨(generate_batch cfg stepB (some xs)).2.getLastD [], getLastD_mem _ _ hne, ?_⟩
  have hvlen : ((generate_batch cfg stepB (some xs)).2.getLastD []).length = xs.length :=
    h.2.1 _ (getLastD_mem _ _ hne)
  have hblt : b < ((generate_batch cfg stepB (some xs)).2.getLastD []).length := by
    rw [hvlen]; exact hb
  rw [List.getD_eq_getElem _ _ hblt]
  exact hlast _ (List.getElem_mem hblt)

/-- C3 witness: with a decoder that emits the end token 50 for every
sequence at the first step, batched generation under the §8 configuration
stops after one step, and (applying the theorem at this concrete input)
sequence 0 of the batch `[[1], [2]]` has emitted the end token. -/
theorem generate_batch_global_early_stop_witness :
    ∃ v ∈ (generate_batch scenarioConfig
        (fun d => d.map (fun _ => (50 : ℤ))) (some [[1], [2]])).2,
      v.getD 0 0 = scenarioConfig.end_token :=
  (generate_batch_global_early_stop scenarioConfig
      (fun d => d.map (fun _ => (50 : ℤ))) [[1], [2]]
      (fun d => List.length_map d _)).2.2 (by decide) 0 (by decide)

/-- C4 (counterexample): under the §8 configuration (`max_length = 51`,
`end_token = 50`), single-sequence generation from the prefix `[[123, 456]]`
with a decoder that never emits the end token returns 51 tokens — the loop
bound is `max_length` itself, with no subtraction of the prefix length — so
the output length is NOT at most 49. -/
theorem generate_scenario_counterexample :
    generate scenarioConfig (fun _ => (0 : ℤ)) (some [[123, 456]]) =
      Except.ok (List.replicate 51 (0 : ℤ)) ∧
    ¬ (List.replicate 51 (0 : ℤ)).length ≤ 49 := by
  constructor
  · rfl
  · decide

/-- C4 (amended): under the §8 configuration, single-sequence generation
seeded with the prefix `[[123, 456]]` (deterministic next-token choice
abstracted as an arbitrary function of the growing input) succeeds and
returns a sequence of token ids of length at most 51 (= `max_length`),
terminating early as soon as token id 50 is produced: 50 never occurs
before the last emitted token. -/
theorem generate_scenario_length_le_max :
    ∀ step : List (List ℤ) → ℤ,
      ∃ out : List ℤ,
        generate scenarioConfig step (some [[123, 456]]) = Except.ok out ∧
        out.length ≤ 51 ∧ (50 : ℤ) ∉ out.dropLast := by
  intro step
  refine ⟨generateLoop step 50 51 [[123, 456]] [], rfl, ?_, ?_⟩
  · have := generateLoop_length_le step 50 51 [[123, 456]] []
    simpa using this
  · exact generateLoop_end_notin_dropLast step 50 51 [[123, 456]] [] (by simp)

/-- C5: for every input and every supplied mask, the attention engine
multiplies the raw scores elementwise by the mask before the softmax, the
attention weights are the softmax of exactly those masked scores, and every
weight — masked positions included — remains strictly positive (the masked
scores are zeroed, not driven to `-∞`, so masked positions keep nonzero
probability mass). -/
theorem attention_mask_mult_before_softmax :
    ∀ (B Lq Lk D H : ℕ)
      (query : Fin B → Fin Lq → Fin D → ℝ) (key : Fin B → Fin Lk → Fin D → ℝ)
      (m : Fin B → Fin H → Fin Lq → Fin Lk → ℝ)
      (b : Fin B) (h : Fin H) (i : Fin Lq) (j : Fin Lk),
      maskedScores B Lq Lk D H query key (some m) b h i j =
        attentionScores B Lq Lk D H query key b h i j * m b h i j ∧
      attentionWeights B Lq Lk D H query key (some m) b h i j =
        softmax (fun j2 => maskedScores B Lq Lk D H query key (some m) b h i j2) j ∧
      0 < attentionWeights B Lq Lk D H query key (some m) b h i j := by
  intro B Lq Lk D H query key m b h i j
  refine ⟨rfl, rfl, ?_⟩
  show 0 < softmax (fun j2 => maskedScores B Lq Lk D H query key (some m) b h i j2) j
  unfold softmax
  exact div_pos (Real.exp_pos _)
    (Finset.sum_pos (fun k _ => Real.exp_pos _) ⟨j, Finset.mem_univ j⟩)

/-- C6: the causal mask built by the decoder block has value 1 at `(i, j)`
iff `i ≥ j - S + D` (computed over `ℤ`) and 0 otherwise, identically across
the batch and head axes it is broadcast over; in particular for `S = D`
every entry with `i < j` is 0. -/
theorem causal_mask_spec (H B D S : ℕ) (b : Fin B) (h : Fin H) (i : Fin D) (j : Fin S) :
    (causal_mask H B D S b h i j = 1 ↔ (i.val : ℤ) ≥ (j.val : ℤ) - S + D) ∧
    (causal_mask H B D S b h i j = 0 ↔ ¬ ((i.val : ℤ) ≥ (j.val : ℤ) - S + D)) ∧
    (S = D → i.val < j.val → causal_mask H B D S b h i j = 0) := by
  have hdef : causal_mask H B D S b h i j =
      if (i.val : ℤ) ≥ (j.val : ℤ) - S + D then 1 else 0 := rfl
  by_cases hc : (i.val : ℤ) ≥ (j.val : ℤ) - S + D
  · rw [hdef, if_pos hc]
    refine ⟨⟨fun _ => hc, fun _ => rfl⟩, ⟨fun h0 => by norm_num at h0, fun hn => absurd hc hn⟩, ?_⟩
    intro hSD hij
    exfalso
    subst hSD
    omega
  · rw [hdef, if_neg hc]
    exact ⟨⟨fun h0 => by norm_num at h0, fun hcc => absurd hcc hc⟩,
      ⟨fun _ => hc, fun _ => rfl⟩, fun _ _ => rfl⟩

/-- C6 witness: the characterization applied at batch 1, 1 head,
`D = S = 3`, `i = 0 < j = 2`: the mask entry is 0. -/
theorem causal_mask_spec_witness : causal_mask 1 1 3 3 0 0 0 2 = 0 :=
  (causal_mask_spec 1 1 3 3 0 0 0 2).2.2 rfl (by decide)

/-- C7: each of the three pre-normalization layers of a decoder block is
constructed with the configured dropout probability as its layer-norm
epsilon (`nn.LayerNorm(self.dropout)` passes `dropout` as the first
positional parameter, which is `epsilon`), so each of the three
normalizations divides by `sqrt(variance + dropout)`. -/
theorem norms_epsilon_eq_dropout :
    ∀ cfg : GPT4Config,
      (setupNorms (cfg.dropout : ℝ)).1.epsilon = (cfg.dropout : ℝ) ∧
      (setupNorms (cfg.dropout : ℝ)).2.1.epsilon = (cfg.dropout : ℝ) ∧
      (setupNorms (cfg.dropout : ℝ)).2.2.epsilon = (cfg.dropout : ℝ) ∧
      ∀ (n : ℕ) (x : Fin n → ℝ) (i : Fin n),
        (setupNorms (cfg.dropout : ℝ)).1.apply x i =
          (x i - vecMean x) / Real.sqrt (vecVar x + (cfg.dropout : ℝ)) ∧
        (setupNorms (cfg.dropout : ℝ)).2.1.apply x i =
          (x i - vecMean x) / Real.sqrt (vecVar x + (cfg.dropout : ℝ)) ∧
        (setupNorms (cfg.dropout : ℝ)).2.2.apply x i =
          (x i - vecMean x) / Real.sqrt (vecVar x + (cfg.dropout : ℝ)) :=
  fun _ => ⟨rfl, rfl, rfl, fun _ _ _ => ⟨rfl, rfl, rfl⟩⟩

/-- C8: in the trainer's epoch loop with a validation loader supplied, every
epoch's validation branch writes the parameter checkpoint (`saves` grows by
exactly one per validation pass, i.e. by the number of epochs), regardless
of whether the validation loss improved; the improvement comparison only
updates `best_val_loss` (to the minimum of the old best and the new loss)
and does not gate the save.  Without a validation loader nothing is saved. -/
theorem train_saves_every_validation_pass :
    ∀ (st : TrainerState) (v : ℚ) (n : ℕ) (f : ℕ → ℚ) (st0 : TrainerState),
      (epochValStep st v).saves = st.saves + 1 ∧
      (epochValStep st v).best_val_loss = min (v : WithTop ℚ) st.best_val_loss ∧
      (train n (some f) st0).saves = st0.saves + n ∧
      (train n none st0).saves = st0.saves := by
  intro st v n f st0
  refine ⟨rfl, ?_, ?_, ?_⟩
  · show (if (v : WithTop ℚ) < st.best_val_loss then (v : WithTop ℚ) else st.best_val_loss) =
      min (v : WithTop ℚ) st.best_val_loss
    rcases lt_or_ge (v : WithTop ℚ) st.best_val_loss with hlt | hge
    · rw [if_pos hlt, min_eq_left (le_of_lt hlt)]
    · rw [if_neg (not_lt.mpr hge), min_eq_right hge]
  · show ((List.range n).foldl (fun st e => epochValStep st (f e)) st0).saves = st0.saves + n
    rw [train_foldl_saves f (List.range n) st0, List.length_range]
  · show ((List.range n).foldl (fun st _ => st) st0).saves = st0.saves
    rw [foldl_id]

/-- C9: saving a parameter tree with `save_params` and loading the resulting
blob with `load_params` yields the identical parameter tree, so a forward
pass (any function of the parameters) on a fixed input produces the same
outputs with the reloaded parameters as with the originals. -/
theorem save_load_roundtrip :
    ∀ (ps : PParams) (apply_fn : PParams → List ℤ → List ℚ) (x : List ℤ),
      load_params (save_params ps) = some ps ∧
      Option.map (fun p => apply_fn p x) (load_params (save_params ps)) =
        some (apply_fn ps x) := by
  intro ps apply_fn x
  have h : load_params (save_params ps) = some ps := by
    show (match decodeEntries ps.length (ps.map encodeEntry).flatten with
      | some (es, _) => some es
      | none => none) = some ps
    rw [show (ps.map encodeEntry).flatten = (ps.map encodeEntry).flatten ++ [] by simp,
      decodeEntries_encode]
  exact ⟨h, by rw [h]; rfl⟩

/-- C10: calling single-sequence generation with an input of batch dimension
greater than 1 fails the batch-size assertion and aborts immediately (no
decoding step runs); with batch dimension 1, or with no input, the assertion
passes and the autoregressive decoding loop runs. -/
theorem generate_batch_size_assertion :
    ∀ (cfg : GPT4Config) (step : List (List ℤ) → ℤ) (xs : List (List ℤ)),
      (1 < xs.length →
        generate cfg step (some xs) =
          Except.error "Batch size must be 1, else use generate_batch()") ∧
      (xs.length = 1 →
        generate cfg step (some xs) =
          Except.ok (generateLoop step cfg.end_token cfg.max_length xs [])) ∧
      generate cfg step none =
        Except.ok (generateLoop step cfg.end_token cfg.max_length [[cfg.start_token]] []) := by
  intro cfg step xs
  refine ⟨?_, ?_, rfl⟩
  · intro h1
    have hne : xs.length ≠ 1 := by omega
    simp [generate, hne]
  · intro h1
    simp [generate, h1]

/-- C10 witness: the assertion behavior at concrete inputs — a batch of two
prefixes aborts with the assertion message, a batch of one proceeds into
the decoding loop. -/
theorem generate_batch_size_assertion_witness :
    generate scenarioConfig (fun _ => (0 : ℤ)) (some [[1], [2]]) =
      Except.error "Batch size must be 1, else use generate_batch()" ∧
    generate scenarioConfig (fun _ => (0 : ℤ)) (some [[123]]) =
      Except.ok (generateLoop (fun _ => (0 : ℤ)) 50 51 [[123]] []) :=
  ⟨(generate_batch_size_assertion scenarioConfig (fun _ => (0 : ℤ)) [[1], [2]]).1 (by decide),
   (generate_batch_size_assertion scenarioConfig (fun _ => (0 : ℤ)) [[123]]).2.1 (by decide)⟩

end Nanodl
